import Mathlib

/-!
Verification development for the xand-mon-agent telemetry agent.

The definitions below are a shallow embedding of the repository's Python
sources:

* `src/solana_client.py` — `SolanaClient.get_catchup_status`: the status
  parser (a chain of three regex strategies over the catchup command's
  stdout), modelled here over `List Char`.
* `src/metrics_collector.py` — `MetricsCollector.update_metrics` and
  `MetricsCollector.get_metrics_dict`, modelled over an explicit record of
  the prometheus gauge values.
* `src/push_client.py` — `PushClient.push_metrics`, modelled as a pure
  function from the per-attempt outcomes of the remote endpoint to the
  returned boolean together with the observable trace (number of delivery
  attempts made, backoff sleeps performed).
* `agent.py` — `metrics_update_loop`, one cycle of collect-then-push.

Machine strings are `List Char`; the regexes of the source are implemented
as explicit matchers (leftmost search, maximal munch — equivalent to the
source's patterns because in each of them every repeated class is followed
by a literal that the class excludes, so the regex engine's backtracking
can never produce a different match).
-/

/-! ## Character classes

`isDigitC` embeds the regex class `\d`, `isWsC` the class `\s`
(ASCII range, which is the alphabet the catchup tool emits). -/

def isDigitC (c : Char) : Bool := '0' ≤ c && c ≤ '9'

def isWsC (c : Char) : Bool :=
  c == ' ' || c == '\t' || c == '\n' || c == '\r' || c == '\x0b' || c == '\x0c'

/-- Case-insensitive match of an input character `c` against a pattern
character `p` that is given in lowercase, as the `re.IGNORECASE` flag does
for ASCII: `c` matches if it equals `p`, or is the uppercase letter whose
lowercase form is `p`. -/
def ciEq (c p : Char) : Bool :=
  c == p || (('A' ≤ c && c ≤ 'Z') && (c.toNat + 32 == p.toNat))

/-- Consume a literal pattern from the front of the input, returning the
rest of the input on success. -/
def expects : List Char → List Char → Option (List Char)
  | [], s => some s
  | _ :: _, [] => none
  | p :: ps, c :: cs => if c == p then expects ps cs else none

/-- Consume a literal pattern case-insensitively (pattern given in
lowercase), as a regex literal under `re.IGNORECASE`. -/
def expectsCI : List Char → List Char → Option (List Char)
  | [], s => some s
  | _ :: _, [] => none
  | p :: ps, c :: cs => if ciEq c p then expectsCI ps cs else none

/-- Maximal run of characters satisfying `p` at the front of the input
(the regex `X+`/`X*` under maximal munch), with the remainder. -/
def spanTake (p : Char → Bool) : List Char → List Char × List Char
  | [] => ([], [])
  | c :: cs =>
    if p c then
      let r := spanTake p cs
      (c :: r.1, r.2)
    else ([], c :: cs)

/-- Value of a decimal digit string, as Python's `int()` on a `\d+` group. -/
def natOfDigits (l : List Char) : Nat :=
  l.foldl (fun n c => 10 * n + (c.toNat - 48)) 0

/-! ## The three regex patterns of `SolanaClient.get_catchup_status` -/

/-- The literal head of `\(us:(\d+)\s+them:(\d+)\)`. -/
def patUs : List Char := ['(', 'u', 's', ':']

/-- The literal `them:` inside the compact pattern. -/
def patThem : List Char := ['t', 'h', 'e', 'm', ':']

/-- The literal `Our validator:` (matched case-insensitively). -/
def patOurValidator : List Char :=
  ['o', 'u', 'r', ' ', 'v', 'a', 'l', 'i', 'd', 'a', 't', 'o', 'r', ':']

/-- The literal `slot` (matched case-insensitively). -/
def patSlot : List Char := ['s', 'l', 'o', 't']

/-- The literal `Cluster:` (matched case-insensitively). -/
def patCluster : List Char := ['c', 'l', 'u', 's', 't', 'e', 'r', ':']

/-- The literal `Processed slot ` of the legacy pattern
`Processed slot (\d+)` (case-sensitive). -/
def patProcessedSlot : List Char :=
  ['P', 'r', 'o', 'c', 'e', 's', 's', 'e', 'd', ' ', 's', 'l', 'o', 't', ' ']

/-- The literal `behind by ` of the pattern `behind by (\d+) slots`. -/
def patBehindBy : List Char :=
  ['b', 'e', 'h', 'i', 'n', 'd', ' ', 'b', 'y', ' ']

/-- The literal ` slots` tail of the pattern `behind by (\d+) slots`. -/
def patSlotsWord : List Char := [' ', 's', 'l', 'o', 't', 's']

/-- Match of the compact regex `\(us:(\d+)\s+them:(\d+)\)` anchored at the
current position, returning the two captured groups as numbers. -/
def matchCompactHere (s : List Char) : Option (Nat × Nat) :=
  match expects patUs s with
  | none => none
  | some s1 =>
    if (spanTake isDigitC s1).1.isEmpty then none else
    if (spanTake isWsC (spanTake isDigitC s1).2).1.isEmpty then none else
    match expects patThem (spanTake isWsC (spanTake isDigitC s1).2).2 with
    | none => none
    | some s4 =>
      if (spanTake isDigitC s4).1.isEmpty then none else
      match (spanTake isDigitC s4).2 with
      | ')' :: _ => some (natOfDigits (spanTake isDigitC s1).1,
                          natOfDigits (spanTake isDigitC s4).1)
      | _ => none

/-- `re.search` of the compact pattern: leftmost position at which
`matchCompactHere` succeeds. -/
def searchCompact : List Char → Option (Nat × Nat)
  | [] => none
  | c :: cs =>
    match matchCompactHere (c :: cs) with
    | some r => some r
    | none => searchCompact cs

/-- Match of `Our validator:\s+slot[=\s]+(\d+)` (IGNORECASE) anchored at
the current position. -/
def matchOurHere (s : List Char) : Option Nat :=
  match expectsCI patOurValidator s with
  | none => none
  | some s1 =>
    if (spanTake isWsC s1).1.isEmpty then none else
    match expectsCI patSlot (spanTake isWsC s1).2 with
    | none => none
    | some s3 =>
      if (spanTake (fun c => c == '=' || isWsC c) s3).1.isEmpty then none else
      if (spanTake isDigitC (spanTake (fun c => c == '=' || isWsC c) s3).2).1.isEmpty
      then none
      else some (natOfDigits
        (spanTake isDigitC (spanTake (fun c => c == '=' || isWsC c) s3).2).1)

/-- `re.search` of the `Our validator:` pattern. -/
def searchOur : List Char → Option Nat
  | [] => none
  | c :: cs =>
    match matchOurHere (c :: cs) with
    | some r => some r
    | none => searchOur cs

/-- Match of `Cluster:\s+slot[=\s]+(\d+)` (IGNORECASE) anchored at the
current position. -/
def matchClusterHere (s : List Char) : Option Nat :=
  match expectsCI patCluster s with
  | none => none
  | some s1 =>
    if (spanTake isWsC s1).1.isEmpty then none else
    match expectsCI patSlot (spanTake isWsC s1).2 with
    | none => none
    | some s3 =>
      if (spanTake (fun c => c == '=' || isWsC c) s3).1.isEmpty then none else
      if (spanTake isDigitC (spanTake (fun c => c == '=' || isWsC c) s3).2).1.isEmpty
      then none
      else some (natOfDigits
        (spanTake isDigitC (spanTake (fun c => c == '=' || isWsC c) s3).2).1)

/-- `re.search` of the `Cluster:` pattern. -/
def searchCluster : List Char → Option Nat
  | [] => none
  | c :: cs =>
    match matchClusterHere (c :: cs) with
    | some r => some r
    | none => searchCluster cs

/-- Match of the legacy pattern `Processed slot (\d+)` anchored at the
current position. -/
def matchProcHere (s : List Char) : Option Nat :=
  match expects patProcessedSlot s with
  | none => none
  | some s1 =>
    if (spanTake isDigitC s1).1.isEmpty then none
    else some (natOfDigits (spanTake isDigitC s1).1)

/-- `re.search` of the legacy `Processed slot` pattern. -/
def searchProc : List Char → Option Nat
  | [] => none
  | c :: cs =>
    match matchProcHere (c :: cs) with
    | some r => some r
    | none => searchProc cs

/-- Match of `behind by (\d+) slots` anchored at the current position. -/
def matchBehindHere (s : List Char) : Option Nat :=
  match expects patBehindBy s with
  | none => none
  | some s1 =>
    if (spanTake isDigitC s1).1.isEmpty then none else
    match expects patSlotsWord (spanTake isDigitC s1).2 with
    | none => none
    | some _ => some (natOfDigits (spanTake isDigitC s1).1)

/-- `re.search` of the `behind by … slots` pattern. -/
def searchBehind : List Char → Option Nat
  | [] => none
  | c :: cs =>
    match matchBehindHere (c :: cs) with
    | some r => some r
    | none => searchBehind cs

/-! ## The parser result and the strategy chain -/

/-- The dictionary returned by `get_catchup_status`
(`local_slot`, `reference_slot`, `slot_lag` keys).  Slot values are Python
integers, embedded as `Int`. -/
structure CatchupResult where
  local_slot : Int
  reference_slot : Int
  slot_lag : Int
deriving DecidableEq, Repr

/-- The legacy fallback strategy (lines 92–107 of `solana_client.py`):
`Processed slot N`, optionally with `behind by K slots`; without the
`behind by` pattern the lag is zero and the reference slot equals the
local slot, with it the reference slot is `local + K`. -/
def legacyParse (s : List Char) : Option CatchupResult :=
  match searchProc s with
  | none => none
  | some n =>
    match searchBehind s with
    | some k => some ⟨(n : Int), (n : Int) + (k : Int), (k : Int)⟩
    | none => some ⟨(n : Int), (n : Int), 0⟩

/-- The strategy chain of `get_catchup_status` on the stripped stdout
(lines 62–111 of `solana_client.py`): compact form first, then the labeled
dual-line form (which requires both labels), then the legacy form. -/
def parseCatchupOutput (s : List Char) : Option CatchupResult :=
  match searchCompact s with
  | some (a, b) => some ⟨(a : Int), (b : Int), max 0 ((b : Int) - (a : Int))⟩
  | none =>
    match searchOur s, searchCluster s with
    | some a, some b => some ⟨(a : Int), (b : Int), max 0 ((b : Int) - (a : Int))⟩
    | _, _ => legacyParse s

/-- Python's `str.strip()` over the ASCII whitespace set. -/
def stripPy (s : List Char) : List Char :=
  ((s.dropWhile isWsC).reverse.dropWhile isWsC).reverse

/-- Outcome of running the external `solana catchup` subprocess: a
completed run with an exit code and stdout text, a 30-second timeout
(`subprocess.TimeoutExpired`), or any other exception while executing. -/
inductive SourceResult where
  | ok (exitCode : Int) (stdout : List Char)
  | timeout
  | procError
deriving DecidableEq

/-- `SolanaClient.get_catchup_status`: `None` on timeout, execution error
or a nonzero exit code; otherwise the strategy chain applied to the
stripped stdout. -/
def get_catchup_status : SourceResult → Option CatchupResult
  | SourceResult.timeout => none
  | SourceResult.procError => none
  | SourceResult.ok code out =>
    if code = 0 then parseCatchupOutput (stripPy out) else none

/-- The compact-form text `(us:<d1> <d2 preceded by them:>)` — the exact
shape named by the spec's compact pattern, with explicit digit strings. -/
def compactText (d1 d2 : List Char) : List Char :=
  '(' :: 'u' :: 's' :: ':' ::
    (d1 ++ ' ' :: 't' :: 'h' :: 'e' :: 'm' :: ':' :: (d2 ++ [')']))

/-! ## Collector state and `MetricsCollector.update_metrics`

The prometheus gauges of `metrics_collector.py` are embedded as one record
of their current values (one labels() child per gauge, as the agent uses).
`last_update` holds the unix timestamp the collector wrote; the `Info`
metric holds an optional version string. -/

structure GaugeState where
  slot_current : Int
  slot_cluster : Int
  slot_lag : Int
  rpc_error : Int
  node_health : Int
  last_update : Nat
  version : Option String
deriving DecidableEq, Repr

/-- The individual gauge writes performed by the success path of
`update_metrics` (lines 100–118 of `metrics_collector.py`), in source
order.  Each list element is one `Gauge.set` (resp. `Info.info`) call:
an individually atomic mutation of the shared registry, with no lock held
across consecutive elements. -/
def updateSteps (c : CatchupResult) (healthy : Bool) (version : Option String)
    (now : Nat) : List (GaugeState → GaugeState) :=
  [ fun st => { st with slot_current := c.local_slot },
    fun st => { st with slot_cluster := c.reference_slot },
    fun st => { st with slot_lag := c.slot_lag },
    fun st => { st with rpc_error := 0 },
    fun st => { st with node_health := if healthy then 1 else 0 },
    fun st => { st with last_update := now },
    fun st => match version with
              | some v => { st with version := some v }
              | none => st ]

/-- Apply a list of gauge writes in order. -/
def applySteps (l : List (GaugeState → GaugeState)) (st : GaugeState) : GaugeState :=
  l.foldl (fun s f => f s) st

/-- `MetricsCollector.update_metrics`: query catchup status; on `None`
set only `rpc_error := 1` and `node_health := 0` and return `False`;
otherwise perform the gauge writes of `updateSteps` and return `True`.
`src` is the catchup subprocess outcome, `healthy` the result of the
`is_healthy` probe, `version` the result of `get_node_version`, `now`
the value of `time.time()` at the update. -/
def update_metrics (src : SourceResult) (healthy : Bool) (version : Option String)
    (now : Nat) (st : GaugeState) : GaugeState × Bool :=
  match get_catchup_status src with
  | none => ({ st with rpc_error := 1, node_health := 0 }, false)
  | some c => (applySteps (updateSteps c healthy version now) st, true)

/-! ## `MetricsCollector.get_metrics_dict` and one agent cycle -/

/-- The dictionary built by `get_metrics_dict`: always the health bit and
a fresh `time.time()` timestamp; the three slot gauges and `rpc_error = 0`
only when its own fresh catchup query parsed (`rpc_error = 1` otherwise);
the version string when its own fresh version query succeeded. -/
structure MetricsDict where
  solana_node_health : Int
  last_update_ts : Nat
  slots : Option (Int × Int × Int)
  solana_rpc_error : Int
  solana_version : Option String
deriving DecidableEq, Repr

/-- `MetricsCollector.get_metrics_dict` (lines 143–173 of
`metrics_collector.py`): note that it performs its own fresh
`get_catchup_status` / `is_healthy` / `get_node_version` calls — its
arguments are the outcomes of those fresh calls, not the gauge state. -/
def get_metrics_dict (q : SourceResult) (healthy : Bool)
    (version : Option String) (now : Nat) : MetricsDict :=
  match get_catchup_status q with
  | some c =>
    { solana_node_health := if healthy then 1 else 0
      last_update_ts := now
      slots := some (c.local_slot, c.reference_slot, c.slot_lag)
      solana_rpc_error := 0
      solana_version := version }
  | none =>
    { solana_node_health := if healthy then 1 else 0
      last_update_ts := now
      slots := none
      solana_rpc_error := 1
      solana_version := version }

/-- One iteration of `metrics_update_loop` in `agent.py` (lines 64–77):
`collector.update_metrics()` followed by
`collector.get_metrics_dict()` whose result is handed to
`push_client.push_metrics`.  Because `update_metrics` and
`get_metrics_dict` each run their own external catchup/health/version
queries, the two halves of the cycle take independent outcomes
(`q1`,`h1`,`v1`,`t1` for the update; `q2`,`h2`,`v2`,`t2` for the dict). -/
def collectAndPushCycle (q1 q2 : SourceResult) (h1 h2 : Bool)
    (v1 v2 : Option String) (t1 t2 : Nat) (st : GaugeState) :
    GaugeState × MetricsDict :=
  ((update_metrics q1 h1 v1 t1 st).1, get_metrics_dict q2 h2 v2 t2)

/-! ## `PushClient.push_metrics`

The remote endpoint's behavior on the `attempt`-th `urlopen` call is an
`AttemptOutcome`; `push_metrics` is embedded as a function from the
outcome sequence to the returned boolean plus the observable trace:
how many attempts were made and which `time.sleep` backoffs ran. -/

inductive AttemptOutcome where
  /-- `urlopen` returned a response with this HTTP status. -/
  | response (status : Nat)
  /-- `urlopen` raised `urllib.error.HTTPError` with this code. -/
  | httpError (code : Nat)
  /-- `urlopen` raised `urllib.error.URLError` (network error). -/
  | urlError
  /-- any other exception. -/
  | otherError
deriving DecidableEq, Repr

/-- The attempt numbers `range(1, retry_attempts + 1)` of the retry loop;
empty when `retry_attempts ≤ 0`. -/
def pushAttemptList (retry_attempts : Int) : List Nat :=
  (List.range retry_attempts.toNat).map (· + 1)

/-- The retry loop body of `push_metrics` (lines 62–106 of
`push_client.py`) over the remaining attempt numbers.  Returns
`(returned value, attempts made, sleeps performed)`: status 200 returns
`True` at once; `HTTPError` with code 401 returns `False` at once; every
other outcome falls through to the backoff, which sleeps `2 ^ attempt`
seconds only when attempts remain. -/
def pushGo (outcomes : Nat → AttemptOutcome) : List Nat → Bool × Nat × List Nat
  | [] => (false, 0, [])
  | a :: rest =>
    let fall : Bool × Nat × List Nat :=
      match rest with
      | [] => (false, 1, [])
      | b :: l =>
        let t := pushGo outcomes (b :: l)
        (t.1, t.2.1 + 1, 2 ^ a :: t.2.2)
    match outcomes a with
    | AttemptOutcome.response s => if s == 200 then (true, 1, []) else fall
    | AttemptOutcome.httpError c => if c == 401 then (false, 1, []) else fall
    | AttemptOutcome.urlError => fall
    | AttemptOutcome.otherError => fall

/-- `PushClient.push_metrics`: immediately `False` (no attempts) when the
client is disabled, otherwise the retry loop over
`range(1, retry_attempts + 1)`. -/
def push_metrics (enabled : Bool) (retry_attempts : Int)
    (outcomes : Nat → AttemptOutcome) : Bool × Nat × List Nat :=
  if enabled then pushGo outcomes (pushAttemptList retry_attempts)
  else (false, 0, [])

/-! ## Formalization of the snapshot-consistency property of claim C9 -/

/-- A concurrently read gauge state is consistent (in the sense of the
spec's atomicity guarantee) when its `slot_current` and `last_update`
both come from the pre-update state or both from the post-update state. -/
def consistentRead (oldSt newSt st : GaugeState) : Prop :=
  (st.slot_current = oldSt.slot_current ∧ st.last_update = oldSt.last_update) ∨
  (st.slot_current = newSt.slot_current ∧ st.last_update = newSt.last_update)

instance (oldSt newSt st : GaugeState) :
    Decidable (consistentRead oldSt newSt st) := by
  unfold consistentRead; infer_instance

/-- Classification of the outcomes that the retry loop treats as
transient (they fall through to the backoff-and-retry path): any response
status other than 200, any `HTTPError` code other than 401, network
errors and unexpected exceptions. -/
def isTransientFailure : AttemptOutcome → Bool
  | AttemptOutcome.response s => s != 200
  | AttemptOutcome.httpError c => c != 401
  | AttemptOutcome.urlError => true
  | AttemptOutcome.otherError => true

/-- A concrete agent cycle in which the collector's own catchup query
returned `(us:100 them:110)` while the fresh query made by
`get_metrics_dict` returned `(us:200 them:230)` — both runs of the same
external command, at slightly different times. -/
def cycleWithDrift : GaugeState × MetricsDict :=
  collectAndPushCycle (SourceResult.ok 0 (String.data "(us:100 them:110)"))
    (SourceResult.ok 0 (String.data "(us:200 them:230)"))
    true true none none 50 50 ⟨0, 0, 0, 0, 0, 0, none⟩

/-! ## Parser lemmas -/

theorem expects_self_append (p r : List Char) : expects p (p ++ r) = some r := by
  induction p with
  | nil => rfl
  | cons c cs ih => simp [expects, ih]

theorem spanTake_append (p : Char → Bool) (d : List Char) (x : Char) (r : List Char)
    (hd : ∀ c ∈ d, p c = true) (hx : p x = false) :
    spanTake p (d ++ x :: r) = (d, x :: r) := by
  induction d with
  | nil => simp [spanTake, hx]
  | cons c cs ih =>
    have hc : p c = true := hd c (List.mem_cons_self _ _)
    have hcs := ih (fun a ha => hd a (List.mem_cons_of_mem _ ha))
    simp [spanTake, hc, hcs]

theorem dropWhile_append_nonws (l r : List Char) (c : Char) (hc : isWsC c = false) :
    List.dropWhile isWsC (l ++ c :: r) = List.dropWhile isWsC l ++ c :: r := by
  induction l with
  | nil => simp [List.dropWhile_cons, hc]
  | cons a as ih =>
    cases ha : isWsC a with
    | true => simp [List.dropWhile_cons, ha, ih]
    | false => simp [List.dropWhile_cons, ha]

theorem mem_of_mem_dropWhile {c : Char} {p : Char → Bool} {l : List Char}
    (h : c ∈ List.dropWhile p l) : c ∈ l := by
  induction l with
  | nil => simp at h
  | cons a as ih =>
    rw [List.dropWhile_cons] at h
    split at h
    · exact List.mem_cons_of_mem _ (ih h)
    · exact h

theorem matchCompactHere_not_lparen (c : Char) (t : List Char) (h : c ≠ '(') :
    matchCompactHere (c :: t) = none := by
  have hb : (c == '(') = false := by
    rw [beq_eq_false_iff_ne]; exact h
  simp [matchCompactHere, expects, patUs, hb]

theorem searchCompact_append_no_lparen (pre s : List Char) (hpre : '(' ∉ pre) :
    searchCompact (pre ++ s) = searchCompact s := by
  induction pre with
  | nil => simp
  | cons c cs ih =>
    have hc : c ≠ '(' := by rintro rfl; exact hpre (List.mem_cons_self _ _)
    have hcs : '(' ∉ cs := fun h => hpre (List.mem_cons_of_mem _ h)
    rw [List.cons_append]
    rw [searchCompact, matchCompactHere_not_lparen _ _ hc]
    exact ih hcs

theorem searchCompact_of_matchHere (s : List Char) (r : Nat × Nat)
    (h : matchCompactHere s = some r) : searchCompact s = some r := by
  cases s with
  | nil => exact absurd h (by simp [matchCompactHere, expects, patUs])
  | cons c cs => simp [searchCompact, h]

theorem matchCompactHere_core (d1 d2 suf : List Char)
    (h1 : d1 ≠ []) (hd1 : ∀ c ∈ d1, isDigitC c = true)
    (h2 : d2 ≠ []) (hd2 : ∀ c ∈ d2, isDigitC c = true) :
    matchCompactHere (compactText d1 d2 ++ suf) =
      some (natOfDigits d1, natOfDigits d2) := by
  have hshape : compactText d1 d2 ++ suf =
      patUs ++ (d1 ++ ' ' ::
        ('t' :: 'h' :: 'e' :: 'm' :: ':' :: (d2 ++ ')' :: suf))) := by
    simp [compactText, patUs]
  have hsp1 : spanTake isDigitC (d1 ++ ' ' ::
      ('t' :: 'h' :: 'e' :: 'm' :: ':' :: (d2 ++ ')' :: suf))) =
      (d1, ' ' :: ('t' :: 'h' :: 'e' :: 'm' :: ':' :: (d2 ++ ')' :: suf))) :=
    spanTake_append _ _ _ _ hd1 (by decide)
  have hsp2 : spanTake isWsC (' ' ::
      ('t' :: 'h' :: 'e' :: 'm' :: ':' :: (d2 ++ ')' :: suf))) =
      ([' '], 't' :: 'h' :: 'e' :: 'm' :: ':' :: (d2 ++ ')' :: suf)) :=
    spanTake_append isWsC [' '] 't' _ (by decide) (by decide)
  have hsp3 : spanTake isDigitC (d2 ++ ')' :: suf) = (d2, ')' :: suf) :=
    spanTake_append _ _ _ _ hd2 (by decide)
  have he1 : d1.isEmpty = false := by
    cases d1 with
    | nil => exact absurd rfl h1
    | cons a l => rfl
  have he2 : d2.isEmpty = false := by
    cases d2 with
    | nil => exact absurd rfl h2
    | cons a l => rfl
  have hthem : expects patThem
      ('t' :: 'h' :: 'e' :: 'm' :: ':' :: (d2 ++ ')' :: suf)) =
      some (d2 ++ ')' :: suf) :=
    expects_self_append patThem (d2 ++ ')' :: suf)
  rw [hshape]
  simp [matchCompactHere, expects_self_append, hsp1, hsp2, hsp3, he1, he2, hthem]

theorem parse_compact (d1 d2 pre suf : List Char)
    (h1 : d1 ≠ []) (hd1 : ∀ c ∈ d1, isDigitC c = true)
    (h2 : d2 ≠ []) (hd2 : ∀ c ∈ d2, isDigitC c = true)
    (hpre : '(' ∉ pre) :
    parseCatchupOutput (pre ++ compactText d1 d2 ++ suf) =
      some ⟨(natOfDigits d1 : Int), (natOfDigits d2 : Int),
            max 0 ((natOfDigits d2 : Int) - (natOfDigits d1 : Int))⟩ := by
  have hs : searchCompact (pre ++ (compactText d1 d2 ++ suf)) =
      some (natOfDigits d1, natOfDigits d2) := by
    rw [searchCompact_append_no_lparen _ _ hpre]
    exact searchCompact_of_matchHere _ _
      (matchCompactHere_core d1 d2 suf h1 hd1 h2 hd2)
  rw [List.append_assoc]
  simp [parseCatchupOutput, hs]

theorem stripPy_sandwich (pre suf mid : List Char) (c0 cl : Char) (t ini : List Char)
    (hh : mid = c0 :: t) (hl : mid = ini ++ [cl])
    (h0 : isWsC c0 = false) (hlw : isWsC cl = false) :
    stripPy (pre ++ mid ++ suf) =
      List.dropWhile isWsC pre ++ mid ++
        (List.dropWhile isWsC suf.reverse).reverse := by
  unfold stripPy
  have hfront : List.dropWhile isWsC (pre ++ mid ++ suf)
      = List.dropWhile isWsC pre ++ mid ++ suf := by
    rw [List.append_assoc, hh, List.cons_append,
        dropWhile_append_nonws _ _ _ h0, ← List.cons_append, ← hh,
        ← List.append_assoc]
  rw [hfront]
  have hrev : (List.dropWhile isWsC pre ++ mid ++ suf).reverse
      = suf.reverse ++ cl ::
          (ini.reverse ++ (List.dropWhile isWsC pre).reverse) := by
    rw [hl]; simp
  rw [hrev, dropWhile_append_nonws _ _ _ hlw, hl]
  simp

/-! ## Claim theorems: the status parser -/

/-- Claim C1: for every input text containing the compact pattern
`(us:A them:B)` with `A`,`B` nonnegative integers (written as the decimal
digit strings `d1`,`d2`; `natOfDigits` is their denoted value) and a zero
exit indicator, the status parser succeeds and returns
`local_slot = A`, `reference_slot = B`, `slot_lag = max 0 (B - A)`.
The hypothesis on the surrounding text before the pattern (`'(' ∉ pre`)
pins the occurrence down as the leftmost one that `re.search` finds. -/
theorem compact_form_parsed (d1 d2 pre suf : List Char)
    (h1 : d1 ≠ []) (hd1 : ∀ c ∈ d1, isDigitC c = true)
    (h2 : d2 ≠ []) (hd2 : ∀ c ∈ d2, isDigitC c = true)
    (hpre : '(' ∉ pre) :
    get_catchup_status (SourceResult.ok 0 (pre ++ compactText d1 d2 ++ suf)) =
      some ⟨(natOfDigits d1 : Int), (natOfDigits d2 : Int),
            max 0 ((natOfDigits d2 : Int) - (natOfDigits d1 : Int))⟩ := by
  have hstep : get_catchup_status
      (SourceResult.ok 0 (pre ++ compactText d1 d2 ++ suf)) =
      parseCatchupOutput (stripPy (pre ++ compactText d1 d2 ++ suf)) := by
    simp [get_catchup_status]
  rw [hstep,
      stripPy_sandwich pre suf (compactText d1 d2) '(' ')'
        ('u' :: 's' :: ':' ::
          (d1 ++ ' ' :: 't' :: 'h' :: 'e' :: 'm' :: ':' :: (d2 ++ [')'])))
        ('(' :: 'u' :: 's' :: ':' ::
          (d1 ++ ' ' :: 't' :: 'h' :: 'e' :: 'm' :: ':' :: d2))
        rfl (by simp [compactText]) (by decide) (by decide)]
  exact parse_compact d1 d2 _ _ h1 hd1 h2 hd2
    (fun h => hpre (mem_of_mem_dropWhile h))

/-- Witness for C1 at the example of the source's comment: prefix
`xandVGGr... has caught up `, `A = 396425415`, `B = 396425420`. -/
theorem compact_form_parsed_witness :
    get_catchup_status (SourceResult.ok 0
      (String.data "xandVGGr has caught up " ++
        compactText (String.data "396425415") (String.data "396425420") ++
        [])) = some ⟨396425415, 396425420, 5⟩ := by
  have h := compact_form_parsed (String.data "396425415")
    (String.data "396425420") (String.data "xandVGGr has caught up ") []
    (by decide) (by decide) (by decide) (by decide) (by decide)
  simpa using h

/-- Claim C7: whenever the status parser succeeds — whichever strategy
matched — the result satisfies
`slot_lag = max 0 (reference_slot - local_slot)`; in particular the lag is
never negative. -/
theorem slot_lag_clamped (src : SourceResult) (r : CatchupResult)
    (h : get_catchup_status src = some r) :
    r.slot_lag = max 0 (r.reference_slot - r.local_slot) ∧ 0 ≤ r.slot_lag := by
  have hp : ∀ s, parseCatchupOutput s = some r →
      r.slot_lag = max 0 (r.reference_slot - r.local_slot) ∧ 0 ≤ r.slot_lag := by
    intro s hps
    unfold parseCatchupOutput at hps
    rcases hcomp : searchCompact s with _ | ⟨a, b⟩
    · rw [hcomp] at hps
      rcases hour : searchOur s with _ | a <;> rw [hour] at hps
      · rcases hclus : searchCluster s with _ | b <;> rw [hclus] at hps
        all_goals {
          unfold legacyParse at hps
          rcases hproc : searchProc s with _ | n <;> rw [hproc] at hps
          · exact absurd hps (by simp)
          · rcases hb : searchBehind s with _ | k <;> rw [hb] at hps <;>
              cases hps.symm <;> constructor <;> simp
        }
      · rcases hclus : searchCluster s with _ | b <;> rw [hclus] at hps
        · unfold legacyParse at hps
          rcases hproc : searchProc s with _ | n <;> rw [hproc] at hps
          · exact absurd hps (by simp)
          · rcases hb : searchBehind s with _ | k <;> rw [hb] at hps <;>
              cases hps.symm <;> constructor <;> simp
        · cases hps.symm
          refine ⟨rfl, le_max_left 0 _⟩
    · rw [hcomp] at hps
      cases hps.symm
      refine ⟨rfl, le_max_left 0 _⟩
  cases src with
  | timeout => exact absurd h (by simp [get_catchup_status])
  | procError => exact absurd h (by simp [get_catchup_status])
  | ok code out =>
    simp only [get_catchup_status] at h
    by_cases hc : code = 0
    · rw [if_pos hc] at h
      exact hp _ h
    · rw [if_neg hc] at h
      exact absurd h (by simp)

/-- Witness for C7 at a compact-form input whose reference is ahead. -/
theorem slot_lag_clamped_witness :
    get_catchup_status (SourceResult.ok 0 (String.data "(us:3 them:10)")) =
      some ⟨3, 10, 7⟩ ∧
    ((7 : Int) = max 0 ((10 : Int) - (3 : Int)) ∧ (0 : Int) ≤ 7) := by
  refine ⟨by decide, ?_⟩
  exact slot_lag_clamped (SourceResult.ok 0 (String.data "(us:3 them:10)"))
    ⟨3, 10, 7⟩ (by decide)

/-- When the compact strategy finds no match and at most one of the two
dual-line labels is found, the parser's result is exactly that of the
legacy strategy. -/
theorem parse_falls_to_legacy (s : List Char)
    (hc : searchCompact s = none)
    (hone : searchOur s = none ∨ searchCluster s = none) :
    parseCatchupOutput s = legacyParse s := by
  rcases hone with ho | hcl
  · cases hcl : searchCluster s <;> simp [parseCatchupOutput, hc, ho, hcl]
  · cases ho : searchOur s <;> simp [parseCatchupOutput, hc, ho, hcl]

/-- Claim C6: the parser tries the three strategies in strict priority
order and returns the first match without merging partial results: a
compact match decides the result; with no compact match and both labels
found, the dual-line strategy decides it; with no compact match and at
most one of the two labels found, the result is exactly that of the
legacy strategy (even though one label may have matched). -/
theorem strategy_priority (s : List Char) :
    (∀ a b, searchCompact s = some (a, b) →
      parseCatchupOutput s =
        some ⟨(a : Int), (b : Int), max 0 ((b : Int) - (a : Int))⟩) ∧
    (∀ a b, searchCompact s = none → searchOur s = some a →
      searchCluster s = some b →
      parseCatchupOutput s =
        some ⟨(a : Int), (b : Int), max 0 ((b : Int) - (a : Int))⟩) ∧
    (searchCompact s = none →
      (searchOur s = none ∨ searchCluster s = none) →
      parseCatchupOutput s = legacyParse s) := by
  refine ⟨?_, ?_, ?_⟩
  · intro a b h
    simp [parseCatchupOutput, h]
  · intro a b hc ho hcl
    simp [parseCatchupOutput, hc, ho, hcl]
  · exact parse_falls_to_legacy s

/-- Witness for C6 at an input where only the local label matches: the
dual-line strategy does not fire and the parser falls through to the
legacy strategy, which also fails — no partial result is returned. -/
theorem strategy_priority_witness :
    (searchCompact (String.data "Our validator: slot=5") = none ∧
     searchOur (String.data "Our validator: slot=5") = some 5 ∧
     searchCluster (String.data "Our validator: slot=5") = none) ∧
    parseCatchupOutput (String.data "Our validator: slot=5") =
      legacyParse (String.data "Our validator: slot=5") ∧
    legacyParse (String.data "Our validator: slot=5") = none := by
  refine ⟨by decide, ?_, by decide⟩
  exact (strategy_priority (String.data "Our validator: slot=5")).2.2
    (by decide) (Or.inr (by decide))

/-- Claim C8: on legacy-form input containing `Processed slot N`, with no
compact match and at most one of the dual-line labels: without a
`behind by` pattern the parser returns `(N, N, 0)`; with `behind by K
slots` it returns `(N, N + K, K)`. -/
theorem legacy_form_parsed (s : List Char) (n : Nat)
    (hc : searchCompact s = none)
    (hone : searchOur s = none ∨ searchCluster s = none)
    (hp : searchProc s = some n) :
    (searchBehind s = none →
      parseCatchupOutput s = some ⟨(n : Int), (n : Int), 0⟩) ∧
    (∀ k, searchBehind s = some k →
      parseCatchupOutput s = some ⟨(n : Int), (n : Int) + (k : Int), (k : Int)⟩) := by
  have hleg : parseCatchupOutput s = legacyParse s :=
    parse_falls_to_legacy s hc hone
  constructor
  · intro hb
    rw [hleg]
    simp [legacyParse, hp, hb]
  · intro k hb
    rw [hleg]
    simp [legacyParse, hp, hb]

/-- Witness for C8 at the spec's two legacy examples. -/
theorem legacy_form_parsed_witness :
    parseCatchupOutput (String.data "Processed slot 500") =
      some ⟨500, 500, 0⟩ ∧
    parseCatchupOutput
      (String.data "Validator is behind by 7 slots. Processed slot 500") =
      some ⟨500, 507, 7⟩ := by
  constructor
  · exact (legacy_form_parsed (String.data "Processed slot 500") 500
      (by decide) (Or.inl (by decide)) (by decide)).1 (by decide)
  · have h := (legacy_form_parsed
      (String.data "Validator is behind by 7 slots. Processed slot 500") 500
      (by decide) (Or.inl (by decide)) (by decide)).2 7 (by decide)
    simpa using h

/-! ## Claim theorems: the collector -/

/-- Claim C2: when the catchup source fails, times out, or its output
matches no known format (`get_catchup_status` returns `None`),
`update_metrics` sets `rpc_error := 1` and `node_health := 0`, leaves the
three slot gauges and `last_update` untouched from the previous cycle,
and returns `False`. -/
theorem degraded_cycle_frame (src : SourceResult) (healthy : Bool)
    (version : Option String) (now : Nat) (st : GaugeState)
    (h : get_catchup_status src = none) :
    (update_metrics src healthy version now st).1.rpc_error = 1 ∧
    (update_metrics src healthy version now st).1.node_health = 0 ∧
    (update_metrics src healthy version now st).1.slot_current = st.slot_current ∧
    (update_metrics src healthy version now st).1.slot_cluster = st.slot_cluster ∧
    (update_metrics src healthy version now st).1.slot_lag = st.slot_lag ∧
    (update_metrics src healthy version now st).1.last_update = st.last_update ∧
    (update_metrics src healthy version now st).2 = false := by
  simp [update_metrics, h]

/-- Witness for C2: unparseable output `garbage output` against a
previous-cycle gauge state. -/
theorem degraded_cycle_frame_witness :
    (update_metrics (SourceResult.ok 0 (String.data "garbage output"))
      true none 99 ⟨7, 9, 2, 0, 1, 42, none⟩).1.rpc_error = 1 ∧
    (update_metrics (SourceResult.ok 0 (String.data "garbage output"))
      true none 99 ⟨7, 9, 2, 0, 1, 42, none⟩).1.node_health = 0 ∧
    (update_metrics (SourceResult.ok 0 (String.data "garbage output"))
      true none 99 ⟨7, 9, 2, 0, 1, 42, none⟩).1.slot_current =
      (⟨7, 9, 2, 0, 1, 42, none⟩ : GaugeState).slot_current ∧
    (update_metrics (SourceResult.ok 0 (String.data "garbage output"))
      true none 99 ⟨7, 9, 2, 0, 1, 42, none⟩).1.slot_cluster =
      (⟨7, 9, 2, 0, 1, 42, none⟩ : GaugeState).slot_cluster ∧
    (update_metrics (SourceResult.ok 0 (String.data "garbage output"))
      true none 99 ⟨7, 9, 2, 0, 1, 42, none⟩).1.slot_lag =
      (⟨7, 9, 2, 0, 1, 42, none⟩ : GaugeState).slot_lag ∧
    (update_metrics (SourceResult.ok 0 (String.data "garbage output"))
      true none 99 ⟨7, 9, 2, 0, 1, 42, none⟩).1.last_update =
      (⟨7, 9, 2, 0, 1, 42, none⟩ : GaugeState).last_update ∧
    (update_metrics (SourceResult.ok 0 (String.data "garbage output"))
      true none 99 ⟨7, 9, 2, 0, 1, 42, none⟩).2 = false :=
  degraded_cycle_frame (SourceResult.ok 0 (String.data "garbage output"))
    true none 99 ⟨7, 9, 2, 0, 1, 42, none⟩ (by decide)

/-- Claim C9 counterexample: the gauge writes of a successful
`update_metrics` cycle are not atomic as a whole — after the first
`Gauge.set` (and before the `last_update` write) the registry holds the
new cycle's `slot_current` together with the previous cycle's
`last_update`, so a concurrent read at that point observes a mix of two
cycles, contradicting the claimed all-or-nothing snapshot replacement. -/
theorem snapshot_atomicity_cex :
    ¬ (∀ k, k ≤ (updateSteps ⟨100, 110, 10⟩ true none 99).length →
        consistentRead ⟨0, 0, 0, 1, 0, 5, none⟩
          (applySteps (updateSteps ⟨100, 110, 10⟩ true none 99)
            ⟨0, 0, 0, 1, 0, 5, none⟩)
          (applySteps ((updateSteps ⟨100, 110, 10⟩ true none 99).take k)
            ⟨0, 0, 0, 1, 0, 5, none⟩)) := by
  intro h
  exact absurd (h 1 (by decide)) (by decide)

/-- Claim C9 amended: `update_metrics` writes the gauges one `set` at a
time, in source order; only the completed sequence is consistent.  After
all writes the registry holds exactly the new cycle's values, and already
after the first write alone the registry holds the new `slot_current`
while `last_update` is still the previous cycle's — the intermediate
state a concurrent reader may observe. -/
theorem snapshot_update_stepwise (c : CatchupResult) (healthy : Bool)
    (version : Option String) (now : Nat) (st : GaugeState) :
    (applySteps (updateSteps c healthy version now) st).slot_current = c.local_slot ∧
    (applySteps (updateSteps c healthy version now) st).slot_cluster = c.reference_slot ∧
    (applySteps (updateSteps c healthy version now) st).slot_lag = c.slot_lag ∧
    (applySteps (updateSteps c healthy version now) st).rpc_error = 0 ∧
    (applySteps (updateSteps c healthy version now) st).node_health =
      (if healthy then 1 else 0) ∧
    (applySteps (updateSteps c healthy version now) st).last_update = now ∧
    (applySteps ((updateSteps c healthy version now).take 1) st).slot_current =
      c.local_slot ∧
    (applySteps ((updateSteps c healthy version now).take 1) st).last_update =
      st.last_update := by
  cases version <;> simp [applySteps, updateSteps]

/-- Claim C4 counterexample: the slot values delivered by the push path
come from `get_metrics_dict`'s own fresh catchup query, not from the
snapshot `update_metrics` stored in the same cycle — with drift between
the two queries the delivered triple `(200, 230, 30)` differs from the
stored `slot_current = 100`. -/
theorem push_payload_cex :
    cycleWithDrift.1.slot_current = 100 ∧
    cycleWithDrift.2.slots = some (200, 230, 30) ∧
    ¬ (cycleWithDrift.2.slots =
        some (cycleWithDrift.1.slot_current, cycleWithDrift.1.slot_cluster,
              cycleWithDrift.1.slot_lag)) := by
  refine ⟨by decide, by decide, by decide⟩

/-- Claim C4 amended: each push payload is built by `get_metrics_dict`
from fresh catchup/health/version queries performed at payload-build
time; when its fresh catchup query parses to `c`, the delivered slot
values are exactly `c`'s, with `rpc_error = 0`. -/
theorem push_payload_from_fresh_query (q : SourceResult) (healthy : Bool)
    (version : Option String) (now : Nat) (c : CatchupResult)
    (h : get_catchup_status q = some c) :
    get_metrics_dict q healthy version now =
      ⟨if healthy then 1 else 0, now,
       some (c.local_slot, c.reference_slot, c.slot_lag), 0, version⟩ := by
  simp [get_metrics_dict, h]

/-- Witness for the amended C4. -/
theorem push_payload_from_fresh_query_witness :
    get_metrics_dict (SourceResult.ok 0 (String.data "(us:200 them:230)"))
      true none 50 = ⟨1, 50, some (200, 230, 30), 0, none⟩ := by
  have h := push_payload_from_fresh_query
    (SourceResult.ok 0 (String.data "(us:200 them:230)")) true none 50
    ⟨200, 230, 30⟩ (by decide)
  simpa using h

/-! ## Claim theorems: push delivery -/

/-- Claim C3 counterexample: a remote that signals 403 Forbidden — an
authentication failure in the claim's sense — on the first attempt does
not short-circuit: with `retry_attempts = 2` the loop makes 2 attempts
and sleeps 2 seconds in between (only `HTTPError` 401 returns at once),
contradicting "exactly one attempt, no backoff sleep, no further
attempts". -/
theorem push_forbidden_retried_cex :
    push_metrics true 2 (fun _ => AttemptOutcome.httpError 403) =
      (false, 2, [2]) ∧
    push_metrics true 2 (fun _ => AttemptOutcome.httpError 403) ≠
      (false, 1, []) := by
  refine ⟨by decide, by decide⟩

/-- Claim C3 amended: only `HTTPError` code 401 (unauthorized) is treated
as a non-retryable authentication failure: on whatever attempt it occurs,
the loop returns `False` after exactly that one further attempt, with no
backoff sleep and no further attempts, however many attempts remain
(403 Forbidden falls through to the transient retry path instead). -/
theorem push_auth_short_circuit (outcomes : Nat → AttemptOutcome) (a : Nat)
    (rest : List Nat) (r : Int) (hr : 1 ≤ r)
    (h401 : outcomes a = AttemptOutcome.httpError 401)
    (hfirst : outcomes 1 = AttemptOutcome.httpError 401) :
    pushGo outcomes (a :: rest) = (false, 1, []) ∧
    push_metrics true r outcomes = (false, 1, []) := by
  have base : ∀ (x : Nat) (l : List Nat),
      outcomes x = AttemptOutcome.httpError 401 →
      pushGo outcomes (x :: l) = (false, 1, []) := by
    intro x l hx
    cases l <;> simp [pushGo, hx]
  refine ⟨base a rest h401, ?_⟩
  obtain ⟨n, hn⟩ : ∃ n, r.toNat = n + 1 := ⟨r.toNat - 1, by omega⟩
  have hlist : pushAttemptList r =
      1 :: ((List.range n).map Nat.succ).map (· + 1) := by
    rw [pushAttemptList, hn, List.range_succ_eq_map]
    simp
  rw [push_metrics, if_pos rfl, hlist]
  exact base 1 _ hfirst

/-- Witness for the amended C3: 401 on the first of three attempts. -/
theorem push_auth_short_circuit_witness :
    pushGo (fun _ => AttemptOutcome.httpError 401) [1, 2, 3] =
      (false, 1, []) ∧
    push_metrics true 3 (fun _ => AttemptOutcome.httpError 401) =
      (false, 1, []) :=
  push_auth_short_circuit (fun _ => AttemptOutcome.httpError 401) 1 [2, 3] 3
    (by decide) rfl rfl

/-- The retry loop under persistently transient failures: it runs through
the whole attempt list, sleeping `2 ^ attempt` after every attempt except
the last, and returns `False`. -/
theorem pushGo_all_transient (outcomes : Nat → AttemptOutcome) :
    ∀ l : List Nat, (∀ a ∈ l, isTransientFailure (outcomes a) = true) →
      pushGo outcomes l = (false, l.length, l.dropLast.map (fun a => 2 ^ a)) := by
  intro l
  induction l with
  | nil => intro _; rfl
  | cons a rest ih =>
    intro hall
    have ha : isTransientFailure (outcomes a) = true :=
      hall a (List.mem_cons_self _ _)
    have hr := ih (fun x hx => hall x (List.mem_cons_of_mem _ hx))
    cases rest with
    | nil =>
      cases ho : outcomes a
      case response s =>
        rw [ho] at ha
        have hne : s ≠ 200 := by simpa [isTransientFailure] using ha
        have hs : (s == 200) = false := by rw [beq_eq_false_iff_ne]; exact hne
        simp [pushGo, ho, hs]
      case httpError c =>
        rw [ho] at ha
        have hne : c ≠ 401 := by simpa [isTransientFailure] using ha
        have hc : (c == 401) = false := by rw [beq_eq_false_iff_ne]; exact hne
        simp [pushGo, ho, hc]
      case urlError => simp [pushGo, ho]
      case otherError => simp [pushGo, ho]
    | cons b l2 =>
      cases ho : outcomes a
      case response s =>
        rw [ho] at ha
        have hne : s ≠ 200 := by simpa [isTransientFailure] using ha
        have hs : (s == 200) = false := by rw [beq_eq_false_iff_ne]; exact hne
        simp [pushGo, ho, hs, hr]
      case httpError c =>
        rw [ho] at ha
        have hne : c ≠ 401 := by simpa [isTransientFailure] using ha
        have hc : (c == 401) = false := by rw [beq_eq_false_iff_ne]; exact hne
        simp [pushGo, ho, hc, hr]
      case urlError => simp [pushGo, ho, hr]
      case otherError => simp [pushGo, ho, hr]

/-- Claim C5: with `retry_attempts = n ≥ 1` and a remote failing every
attempt with a transient (non-auth) error, `push_metrics` makes exactly
`n` attempts, sleeps `2 ^ attempt` seconds (2, 4, 8, …) after every
attempt except the last, and returns `False` after the final failure. -/
theorem push_retry_exhaustion (n : Nat) (outcomes : Nat → AttemptOutcome)
    (hn : 1 ≤ n) (hall : ∀ a, isTransientFailure (outcomes a) = true) :
    push_metrics true (n : Int) outcomes =
      (false, n, (List.range (n - 1)).map (fun i => 2 ^ (i + 1))) := by
  have hra : pushAttemptList (n : Int) = (List.range n).map (· + 1) := by
    rw [pushAttemptList, Int.toNat_natCast]
  have h := pushGo_all_transient outcomes ((List.range n).map (· + 1))
    (fun a _ => hall a)
  rw [push_metrics, if_pos rfl, hra, h]
  obtain ⟨m, rfl⟩ : ∃ m, n = m + 1 := ⟨n - 1, by omega⟩
  rw [List.range_succ]
  simp [List.map_map, Function.comp]

/-- Witness for C5 at the spec's example: 3 attempts, sleeps 2s then 4s,
returns `False` after the third failure. -/
theorem push_retry_exhaustion_witness :
    push_metrics true ((3 : Nat) : Int) (fun _ => AttemptOutcome.urlError) =
      (false, 3, [2, 4]) := by
  rw [push_retry_exhaustion 3 (fun _ => AttemptOutcome.urlError)
    (by decide) (fun a => rfl)]
  rfl

/-- Claim C10: with a zero or negative configured retry-attempt count,
`push_metrics` on an enabled client makes no delivery attempt, performs
no sleep, and returns `False` immediately
(`range(1, retry_attempts + 1)` is empty). -/
theorem push_nonpositive_attempts (outcomes : Nat → AttemptOutcome)
    (r : Int) (hr : r ≤ 0) :
    push_metrics true r outcomes = (false, 0, []) := by
  have h0 : r.toNat = 0 := Int.toNat_of_nonpos hr
  simp [push_metrics, pushAttemptList, h0, pushGo]

/-- Witness for C10 at `retry_attempts = -1`. -/
theorem push_nonpositive_attempts_witness :
    push_metrics true (-1) (fun _ => AttemptOutcome.urlError) =
      (false, 0, []) :=
  push_nonpositive_attempts (fun _ => AttemptOutcome.urlError) (-1) (by decide)
